import Mathlib

/-! Falcor: RenderGraphEditor and PathTracer.

A shallow embedding of `Samples/RenderGraphEditor/RenderGraphEditor.cpp` and of the
`serializePass` template of `Source/RenderPasses/PathTracer/PathTracer.h`.

Conventions of the embedding.

* `std::string` is a Lean `String`; one `Char` stands for one C++ `char`, positions are
  positions in `String.data`.
* `size_t` is a `Nat` reduced modulo `2 ^ 64` wherever the code computes with it;
  `int32_t` and `uint32_t` casts are written out (`toInt32`, `toUInt32`).
* The framework objects the editor only holds and calls (`RenderGraph`, `RenderGraphUI`,
  the camera controller) are represented by the calls they have received, in order.
* An access `v[i]` outside a vector, a call through a null pointer and a thrown
  exception make an operation return `none`.
* `logWarning` appends its message to the `log` of the state.
-/

namespace Falcor

/-! ## Machine integers and `std::string` -/

/-- The value of `std::string::npos` for a 64-bit `size_t`. -/
def npos : Nat := 2 ^ 64 - 1

/-- Arithmetic on `size_t`: reduction modulo `2 ^ 64`. -/
def wrapSize (n : Nat) : Nat := n % 2 ^ 64

/-- Subtraction of two `size_t` values (both below `2 ^ 64`), wrapping around. -/
def subSize (a b : Nat) : Nat := (a + 2 ^ 64 - b) % 2 ^ 64

/-- The cast `static_cast<int32_t>(n)` of an unsigned value (two's complement). -/
def toInt32 (n : Nat) : Int :=
  if n % 2 ^ 32 < 2 ^ 31 then ((n % 2 ^ 32 : Nat) : Int) else ((n % 2 ^ 32 : Nat) : Int) - 2 ^ 32

/-- The conversion of an `int32_t` to `uint32_t`. -/
def toUInt32 (i : Int) : Nat := (i % 2 ^ 32).toNat

/-- Position of the last occurrence of `c` in a character sequence, if any. -/
def lastIndex? (c : Char) : List Char → Option Nat
  | [] => none
  | x :: xs =>
    match lastIndex? c xs with
    | some i => some (i + 1)
    | none => if x = c then some 0 else none

/-- The call `s.find_last_of(c)`: the last position of `c`, or `npos`. -/
def find_last_of (s : String) (c : Char) : Nat :=
  match lastIndex? c s.data with
  | some i => i
  | none => npos

/-- The call `s.substr(pos, count)`: throws `std::out_of_range` (here `none`) when
`pos > s.size()`, and otherwise copies `min(count, size - pos)` characters from `pos`. -/
def substr (s : String) (pos count : Nat) : Option String :=
  if s.length < pos then none
  else some ⟨(s.data.drop pos).take (min count (s.length - pos))⟩

/-- The call `s.resize(n, c)`. -/
def resize (s : String) (n : Nat) (c : Char) : String :=
  ⟨s.data.take n ++ List.replicate (n - s.length) c⟩

/-- The access `s[0]`, which is the terminating NUL when `s` is empty. -/
def firstChar (s : String) : Char := s.data.getD 0 (Char.ofNat 0)

/-! ## The editor state -/

/-- An entry of a GUI drop-down list (`Gui::DropdownValue`). -/
structure DropdownValue where
  value : Int
  label : String
  deriving DecidableEq

/-- The scene pointer handed to `RenderGraph::setScene`. -/
inductive SceneArg where
  | null
  | loadedFromFile (filename : String)
  | sceneOfGraph (index : Nat)
  deriving DecidableEq

/-- The calls the editor makes on a `RenderGraph` (or through it, on its scene). -/
inductive GraphCall where
  | loadAndRunScript (fileName : String)
  | saveRenderGraphAsScript (fileName : String)
  | setScene (scene : SceneArg)
  | setOutput (name : String)
  | markGraphOutput (name : String)
  | unmarkGraphOutput (name : String)
  | onResizeSwapChain
  | addEdge (src dst : String)
  | addRenderPass (passType passName : String)
  | sceneUpdate
  | execute
  deriving DecidableEq

/-- A `RenderGraph` of the framework, as the editor sees it: the calls it received. -/
structure RenderGraph where
  calls : List GraphCall
  deriving DecidableEq

/-- The calls the editor makes on a `RenderGraphUI`. -/
inductive UICall where
  | renderUI
  | reset
  deriving DecidableEq

/-- A `RenderGraphUI`: the graph it was constructed on (its position in `mpGraphs`) and
the calls it received. -/
structure RenderGraphUI where
  graph : Nat
  calls : List UICall
  deriving DecidableEq

/-- The members of `RenderGraphEditor`, the static `RenderGraphUI::sRebuildDisplayData`,
and the warnings logged so far. -/
structure EditorState where
  mOpenGraphNames : List DropdownValue
  mpGraphs : List RenderGraph
  mRenderGraphUIs : List RenderGraphUI
  mCurrentGraphIndex : Nat
  mCreatingRenderGraph : Bool
  mPreviewing : Bool
  mShowCreateGraphWindow : Bool
  mNextGraphString : String
  mCurrentGraphOutput : String
  mGraphOutputEditString : String
  mpLastSample : Option Nat
  mCamControl : List SceneArg
  sRebuildDisplayData : Bool
  log : List String
  deriving DecidableEq

/-- The constant `gkDefaultScene`. -/
def gkDefaultScene : String := "Arcade/Arcade.fscene"

/-- The constructor `RenderGraphEditor::RenderGraphEditor()`. The members it does not
mention start empty; `mShowCreateGraphWindow`, which it leaves to the class declaration,
is a parameter. -/
def RenderGraphEditor (showCreateGraphWindow : Bool) : EditorState :=
  { mOpenGraphNames := []
    mpGraphs := []
    mRenderGraphUIs := []
    mCurrentGraphIndex := 0
    mCreatingRenderGraph := false
    mPreviewing := false
    mShowCreateGraphWindow := showCreateGraphWindow
    mNextGraphString := resize "" 255 (Char.ofNat 0)
    mCurrentGraphOutput := "BlitPass.dst"
    mGraphOutputEditString := resize "BlitPass.dst" 255 (Char.ofNat 0)
    mpLastSample := none
    mCamControl := []
    sRebuildDisplayData := false
    log := [] }

/-- One call `mpGraphs[i]->...`: the call is appended to the history of graph `i`. -/
def callGraph (i : Nat) (c : GraphCall) (s : EditorState) : Option EditorState :=
  match s.mpGraphs[i]? with
  | none => none
  | some g => some { s with mpGraphs := s.mpGraphs.set i { g with calls := g.calls ++ [c] } }

/-- One call `mRenderGraphUIs[i]. ...`. -/
def callUI (i : Nat) (c : UICall) (s : EditorState) : Option EditorState :=
  match s.mRenderGraphUIs[i]? with
  | none => none
  | some u =>
    some { s with mRenderGraphUIs := s.mRenderGraphUIs.set i { u with calls := u.calls ++ [c] } }

/-- The framework's `logWarning`: the message is recorded in the log. -/
def logWarning (msg : String) (s : EditorState) : EditorState :=
  { s with log := s.log ++ [msg] }

/-! ## Operations of the editor -/

/-- The method `RenderGraphEditor::loadScene`. -/
def loadScene (filename : String) (_showProgressBar : Bool) (s : EditorState) :
    Option EditorState := do
  let s ← callGraph s.mCurrentGraphIndex (.setScene .null) s
  let s ← callGraph s.mCurrentGraphIndex (.setScene (.loadedFromFile filename)) s
  pure { s with mCamControl := s.mCamControl ++ [.loadedFromFile filename] }

/-- The method `RenderGraphEditor::serializeRenderGraph`. -/
def serializeRenderGraph (fileName : String) (s : EditorState) : Option EditorState :=
  callGraph s.mCurrentGraphIndex (.saveRenderGraphAsScript fileName) s

/-- The method `RenderGraphEditor::deserializeRenderGraph`. -/
def deserializeRenderGraph (fileName : String) (s : EditorState) : Option EditorState := do
  let s ← callGraph s.mCurrentGraphIndex (.loadAndRunScript fileName) s
  pure { s with sRebuildDisplayData := true }

/-- The method `RenderGraphEditor::createRenderGraph`. -/
def createRenderGraph (renderGraphName renderGraphNameFileName : String) (s : EditorState) :
    Option EditorState := do
  let s := { s with mCreatingRenderGraph := true }
  let nextGraphID : DropdownValue :=
    { value := toInt32 s.mOpenGraphNames.length, label := renderGraphName }
  let s := { s with mOpenGraphNames := s.mOpenGraphNames ++ [nextGraphID] }
  let newGraph : RenderGraph := { calls := [] }
  let s := { s with mCurrentGraphIndex := s.mpGraphs.length }
  let s := { s with mpGraphs := s.mpGraphs ++ [newGraph] }
  let graphUI : RenderGraphUI := { graph := s.mCurrentGraphIndex, calls := [] }
  let s := { s with mRenderGraphUIs := s.mRenderGraphUIs ++ [graphUI] }
  let s ←
    (if renderGraphNameFileName.length ≠ 0 then
      callGraph s.mCurrentGraphIndex (.loadAndRunScript renderGraphNameFileName) s
    else some s)
  let s ←
    (if 1 ≤ s.mCurrentGraphIndex then
      callGraph s.mCurrentGraphIndex (.setScene (.sceneOfGraph 0)) s
    else loadScene gkDefaultScene false s)
  let _ ← s.mpLastSample
  let s ← callGraph s.mCurrentGraphIndex (.setOutput s.mCurrentGraphOutput) s
  let s ← callGraph s.mCurrentGraphIndex .onResizeSwapChain s
  pure { s with mCreatingRenderGraph := false, sRebuildDisplayData := true }

/-- The method `RenderGraphEditor::createAndAddConnection`. The answer of the framework's
`RenderGraph::addEdge` is given by `addEdge`, a function of the graph asked (its history)
and of the two arguments. -/
def createAndAddConnection (addEdge : RenderGraph → String → String → Bool)
    (srcRenderPass dstRenderPass srcField dstField : String) (s : EditorState) :
    Option EditorState :=
  match s.mpGraphs[s.mCurrentGraphIndex]? with
  | none => none
  | some g =>
    let src := srcRenderPass ++ "." ++ srcField
    let dst := dstRenderPass ++ "." ++ dstField
    match callGraph s.mCurrentGraphIndex (.addEdge src dst) s with
    | none => none
    | some s1 =>
      if !(addEdge g src dst) then
        some (logWarning
          ((((((((("Failed to create edge between nodes: ".append srcRenderPass).append
            " and ").append dstRenderPass).append " connecting fields ").append
            srcField).append " to ").append dstField).append ".\n")) s1)
      else some s1

/-- The static map `RenderGraphLoader::sBaseRenderCreateFuncs`, as far as the editor uses
it: its keys, each with whether the `std::function` stored under it holds a target. -/
abbrev CreateFuncs := List (String × Bool)

/-- The access `sBaseRenderCreateFuncs[key]`: a key that is not in the map is added with
an empty `std::function`. The map afterwards and whether the function found holds a
target are returned. -/
def CreateFuncs.index (m : CreateFuncs) (key : String) : CreateFuncs × Bool :=
  match m.find? (fun e => e.1 == key) with
  | some e => (m, e.2)
  | none => (m ++ [(key, false)], false)

/-- The method `RenderGraphEditor::createAndAddRenderPass`. It yields the map
`sBaseRenderCreateFuncs` after the call together with the editor; calling an empty
`std::function` throws `std::bad_function_call`, which leaves no editor state (`none`)
but keeps the key the access has added. -/
def createAndAddRenderPass (sBaseRenderCreateFuncs : CreateFuncs)
    (renderPassType renderPassName : String) (s : EditorState) :
    CreateFuncs × Option EditorState :=
  let found := sBaseRenderCreateFuncs.index renderPassType
  if found.2 then
    (found.1, callGraph s.mCurrentGraphIndex (.addRenderPass renderPassType renderPassName) s)
  else (found.1, none)

/-- The method `RenderGraphEditor::onLoad`. -/
def onLoad (pSample : Nat) (s : EditorState) : Option EditorState :=
  createRenderGraph "DefaultRenderGraph" "" { s with mpLastSample := some pSample }

/-- The method `RenderGraphEditor::renderGraphEditorGUI`, whose body is empty. -/
def renderGraphEditorGUI (s : EditorState) : Option EditorState := some s

/-- The method `RenderGraphEditor::onFrameRender`; `keyE` is the answer of
`pSample->isKeyPressed(KeyboardEvent::Key::E)`. -/
def onFrameRender (pSample : Nat) (keyE : Bool) (s : EditorState) : Option EditorState := do
  let s := if s.mPreviewing && keyE then { s with mPreviewing := false } else s
  let s := { s with mpLastSample := some pSample }
  if !s.mPreviewing then pure s
  else do
    let s ← callGraph s.mCurrentGraphIndex .sceneUpdate s
    callGraph s.mCurrentGraphIndex .execute s

/-- The methods `RenderGraphEditor::onKeyEvent` and `onMouseEvent`: the answer of the
camera controller is returned, and no member changes. -/
def onKeyEvent (camAnswer : Bool) (s : EditorState) : Bool × EditorState := (camAnswer, s)

/-- See `onKeyEvent`. -/
def onMouseEvent (camAnswer : Bool) (s : EditorState) : Bool × EditorState := (camAnswer, s)

/-- The method `RenderGraphEditor::onResizeSwapChain`. -/
def onResizeSwapChain (s : EditorState) : Option EditorState := do
  let s ← callGraph s.mCurrentGraphIndex (.setOutput s.mCurrentGraphOutput) s
  callGraph s.mCurrentGraphIndex .onResizeSwapChain s

/-! ## `onGuiRender` -/

/-- What the GUI library and the framework answer during one call of `onGuiRender`.
A file dialog is `some fileName` when it returns true. `openGraphDropdown` is
`some selection` when `addDropdown` returns true, with the `uint32_t` it stored.
`sGraphOutputString` is the static `RenderGraphLoader::sGraphOutputString` as read by the
frame. `graphNameText` is `some text` when `addTextBox` changed `mNextGraphString`. -/
structure GuiFrame where
  beginMainMenuBar : Bool
  fileMenu : Bool
  createNewGraphItem : Bool
  loadGraphItem : Bool
  loadGraphDialog : Option String
  saveGraphItem : Bool
  saveGraphDialog : Option String
  runScriptItem : Bool
  runScriptDialog : Option String
  openGraphDropdown : Option Nat
  previewButton : Bool
  sGraphOutputString : String
  updateTextBox : Bool
  graphNameText : Option String
  createGraphButton : Bool
  cancelButton : Bool
  deriving DecidableEq

/-- The local `nameOffset` of the "Load Graph" item:
`renderGraphFileName.find_last_of('\\') + 1`; the backslash is character 92. -/
def nameOffset (renderGraphFileName : String) : Nat :=
  wrapSize (find_last_of renderGraphFileName (Char.ofNat 92) + 1)

/-- The local `fileExtOffset` of the "Load Graph" item, after the `npos` test. -/
def fileExtOffset (renderGraphFileName : String) : Nat :=
  let fileExtOffset := find_last_of renderGraphFileName '.'
  if fileExtOffset = npos then renderGraphFileName.length else fileExtOffset

/-- The first argument the "Load Graph" item passes to `createRenderGraph`:
`renderGraphFileName.substr(nameOffset, fileExtOffset - nameOffset)`. -/
def loadGraphName (renderGraphFileName : String) : Option String :=
  substr renderGraphFileName (nameOffset renderGraphFileName)
    (subSize (fileExtOffset renderGraphFileName) (nameOffset renderGraphFileName))

/-- The body of `if (pGui->addMenuItem("Load Graph"))`. -/
def onGuiRender_loadGraph (dialog : Option String) (s : EditorState) : Option EditorState :=
  match dialog with
  | none => some s
  | some renderGraphFileName =>
    match loadGraphName renderGraphFileName with
    | none => none
    | some name => createRenderGraph name renderGraphFileName s

/-- The body of `if (pGui->addMenuItem("Save Graph"))`. -/
def onGuiRender_saveGraph (dialog : Option String) (s : EditorState) : Option EditorState :=
  match dialog with
  | none => some s
  | some renderGraphFileName => serializeRenderGraph renderGraphFileName s

/-- The body of `if (pGui->addMenuItem("RunScript"))`. -/
def onGuiRender_runScript (dialog : Option String) (s : EditorState) : Option EditorState :=
  match dialog with
  | none => some s
  | some renderGraphFileName => deserializeRenderGraph renderGraphFileName s

/-- The "Create New Graph" item of the menu. -/
def onGuiRender_createNewGraph (clicked : Bool) (s : EditorState) : EditorState :=
  if !s.mShowCreateGraphWindow && clicked then { s with mShowCreateGraphWindow := true }
  else s

/-- The main menu bar of `onGuiRender`. -/
def onGuiRender_menu (g : GuiFrame) (s : EditorState) : Option EditorState :=
  if g.beginMainMenuBar && g.fileMenu then do
    let s := onGuiRender_createNewGraph g.createNewGraphItem s
    let s ← (if g.loadGraphItem then onGuiRender_loadGraph g.loadGraphDialog s else some s)
    let s ← (if g.saveGraphItem then onGuiRender_saveGraph g.saveGraphDialog s else some s)
    (if g.runScriptItem then onGuiRender_runScript g.runScriptDialog s else some s)
  else some s

/-- The "Open Graph" drop-down of `onGuiRender`. -/
def onGuiRender_openGraph (dropdown : Option Nat) (s : EditorState) : Option EditorState :=
  if s.mOpenGraphNames.length ≠ 0 then
    match dropdown with
    | some selection => callUI selection .reset { s with mCurrentGraphIndex := selection }
    | none => some s
  else some s

/-- The test on `RenderGraphLoader::sGraphOutputString` of `onGuiRender`. -/
def onGuiRender_loaderOutput (sGraphOutputString : String) (s : EditorState) :
    Option EditorState :=
  if firstChar sGraphOutputString ≠ '0' && s.mCurrentGraphOutput ≠ sGraphOutputString then
    let s := { s with mGraphOutputEditString := sGraphOutputString }
    let s := { s with mCurrentGraphOutput := s.mGraphOutputEditString }
    callGraph s.mCurrentGraphIndex (.setOutput s.mCurrentGraphOutput) s
  else some s

/-- The "Update" text box of `onGuiRender`; `updated` is the answer of `addMultiTextBox`,
which edits the local copy `graphOutputString` only. -/
def onGuiRender_graphOutput (updated : Bool) (s : EditorState) : Option EditorState :=
  if updated then
    if s.mCurrentGraphOutput ≠ s.mGraphOutputEditString then do
      let s ← callGraph s.mCurrentGraphIndex (.unmarkGraphOutput s.mCurrentGraphOutput) s
      let s := { s with mCurrentGraphOutput := s.mGraphOutputEditString }
      let s ← callGraph s.mCurrentGraphIndex (.markGraphOutput s.mCurrentGraphOutput) s
      callGraph s.mCurrentGraphIndex (.setOutput s.mCurrentGraphOutput) s
    else some s
  else some s

/-- The statements `mNextGraphString.clear(); mNextGraphString.resize(255, '0');
mShowCreateGraphWindow = false;` that close the "CreateNewGraph" window. -/
def closeCreateWindow (s : EditorState) : EditorState :=
  { s with mNextGraphString := resize "" 255 '0', mShowCreateGraphWindow := false }

/-- The call `pGui->addTextBox("Graph Name", mNextGraphString)`. -/
def editGraphName (text : Option String) (s : EditorState) : EditorState :=
  match text with
  | some text => { s with mNextGraphString := text }
  | none => s

/-- The "Create Graph" button of the "CreateNewGraph" window. -/
def onGuiRender_createGraph (clicked : Bool) (s : EditorState) : Option EditorState :=
  if clicked && firstChar s.mNextGraphString ≠ Char.ofNat 0 then
    (createRenderGraph s.mNextGraphString "" s).map closeCreateWindow
  else some s

/-- The "CreateNewGraph" window of `onGuiRender`. -/
def onGuiRender_createWindow (g : GuiFrame) (s : EditorState) : Option EditorState :=
  if s.mShowCreateGraphWindow then do
    let s := editGraphName g.graphNameText s
    let s ← onGuiRender_createGraph g.createGraphButton s
    some (if g.cancelButton then closeCreateWindow s else s)
  else some s

/-- The method `RenderGraphEditor::onGuiRender`. Calls that only draw (windows, the list
of available render passes) leave the editor untouched and are not represented. -/
def onGuiRender (g : GuiFrame) (s : EditorState) : Option EditorState := do
  let s ← onGuiRender_menu g s
  let s ← callUI s.mCurrentGraphIndex .renderUI s
  let s ← onGuiRender_openGraph g.openGraphDropdown s
  let s := (if g.previewButton then { s with mPreviewing := true } else s)
  let s ← onGuiRender_loaderOutput g.sGraphOutputString s
  let s ← onGuiRender_graphOutput g.updateTextBox s
  onGuiRender_createWindow g s

/-! ## `WinMain` -/

/-- The fields of `SampleConfig` that `WinMain` sets. -/
structure SampleConfig where
  title : String
  resizableWindow : Bool
  deriving DecidableEq

/-- A call on the editor: one of the methods `RenderGraphEditor.cpp` defines, with its
arguments and the answers of the framework it depends on. -/
inductive EditorCall where
  | onGuiRender (g : GuiFrame)
  | loadScene (filename : String) (showProgressBar : Bool)
  | serializeRenderGraph (fileName : String)
  | deserializeRenderGraph (fileName : String)
  | createRenderGraph (renderGraphName renderGraphNameFileName : String)
  | createAndAddConnection (srcRenderPass dstRenderPass srcField dstField : String)
  | createAndAddRenderPass (renderPassType renderPassName : String)
  | onLoad (pSample : Nat)
  | renderGraphEditorGUI
  | onFrameRender (pSample : Nat) (keyE : Bool)
  | onKeyEvent (camAnswer : Bool)
  | onMouseEvent (camAnswer : Bool)
  | onResizeSwapChain
  deriving DecidableEq

/-- One call on the editor, with the map `sBaseRenderCreateFuncs` beside it. -/
def EditorCall.apply (addEdge : RenderGraph → String → String → Bool) (c : EditorCall)
    (funcs : CreateFuncs) (s : EditorState) : Option (CreateFuncs × EditorState) :=
  match c with
  | .onGuiRender g => (Falcor.onGuiRender g s).map (fun s' => (funcs, s'))
  | .loadScene filename showProgressBar =>
    (Falcor.loadScene filename showProgressBar s).map (fun s' => (funcs, s'))
  | .serializeRenderGraph fileName =>
    (Falcor.serializeRenderGraph fileName s).map (fun s' => (funcs, s'))
  | .deserializeRenderGraph fileName =>
    (Falcor.deserializeRenderGraph fileName s).map (fun s' => (funcs, s'))
  | .createRenderGraph renderGraphName renderGraphNameFileName =>
    (Falcor.createRenderGraph renderGraphName renderGraphNameFileName s).map
      (fun s' => (funcs, s'))
  | .createAndAddConnection srcRenderPass dstRenderPass srcField dstField =>
    (Falcor.createAndAddConnection addEdge srcRenderPass dstRenderPass srcField dstField s).map
      (fun s' => (funcs, s'))
  | .createAndAddRenderPass renderPassType renderPassName =>
    ((Falcor.createAndAddRenderPass funcs renderPassType renderPassName s).2).map
      (fun s' => ((Falcor.createAndAddRenderPass funcs renderPassType renderPassName s).1, s'))
  | .onLoad pSample => (Falcor.onLoad pSample s).map (fun s' => (funcs, s'))
  | .renderGraphEditorGUI => (Falcor.renderGraphEditorGUI s).map (fun s' => (funcs, s'))
  | .onFrameRender pSample keyE =>
    (Falcor.onFrameRender pSample keyE s).map (fun s' => (funcs, s'))
  | .onKeyEvent camAnswer => some (funcs, (Falcor.onKeyEvent camAnswer s).2)
  | .onMouseEvent camAnswer => some (funcs, (Falcor.onMouseEvent camAnswer s).2)
  | .onResizeSwapChain => (Falcor.onResizeSwapChain s).map (fun s' => (funcs, s'))

/-- Modelled from the spec: the framework's `Sample::run`, whose code is not part of the
sources at hand, "single-threaded GUI/render-loop callback dispatch controlled entirely by
the external framework's main loop". The calls the loop makes on the editor are given as
a list, in the order in which it makes them; the run ends when one of them fails. -/
def Sample.run (addEdge : RenderGraph → String → String → Bool) (_config : SampleConfig) :
    List EditorCall → CreateFuncs → EditorState → Option (CreateFuncs × EditorState)
  | [], funcs, pEditor => some (funcs, pEditor)
  | c :: rest, funcs, pEditor =>
    match c.apply addEdge funcs pEditor with
    | none => none
    | some next => Sample.run addEdge _config rest next.1 next.2

/-- The function `WinMain`: the editor is constructed, the configuration is filled in, the
framework's `Sample::run` takes over, and 0 is returned. `calls` are the calls the main
loop makes on the editor, `sBaseRenderCreateFuncs` the static map at the start. -/
def WinMain (addEdge : RenderGraph → String → String → Bool) (showCreateGraphWindow : Bool)
    (sBaseRenderCreateFuncs : CreateFuncs) (calls : List EditorCall) :
    Option (Int × CreateFuncs × EditorState) :=
  let pEditor := RenderGraphEditor showCreateGraphWindow
  let config : SampleConfig := { title := "Render Graph Editor", resizableWindow := true }
  (Sample.run addEdge config calls sBaseRenderCreateFuncs pEditor).map (fun r => (0, r))

/-- The message `createAndAddConnection` logs for a rejected edge. -/
def connectionWarning (srcRenderPass dstRenderPass srcField dstField : String) : String :=
  "Failed to create edge between nodes: " ++ srcRenderPass ++ " and " ++ dstRenderPass ++
    " connecting fields " ++ srcField ++ " to " ++ dstField ++ ".\n"

/-! ## `PathTracer::serializePass` -/

/-- Modelled from the spec: the framework's `Dictionary`, whose declaration is not part of
the sources at hand, "a generic key/value configuration container". Its entries are kept
in the order in which a range-based `for` visits them. -/
structure Dictionary (V : Type) where
  entries : List (String × V)
  deriving DecidableEq

/-- Modelled from the spec: the call `dict.keyExists(key)` of the `Dictionary`. -/
def Dictionary.keyExists {V : Type} (d : Dictionary V) (key : String) : Bool :=
  d.entries.any (fun kv => kv.1 == key)

/-- Modelled from the spec: the value `dict[key]` reads from the `Dictionary` when the
key exists, the first entry with that key. -/
def Dictionary.find? {V : Type} (d : Dictionary V) (key : String) : Option V :=
  (d.entries.find? (fun kv => kv.1 == key)).map Prod.snd

/-- Modelled from the spec: the assignment `dict[key] = v` on the `Dictionary`; the value
under an existing key is replaced, a new key is added. -/
def Dictionary.assign {V : Type} (d : Dictionary V) (key : String) (v : V) : Dictionary V :=
  if d.keyExists key then
    ⟨d.entries.map (fun kv => if kv.1 == key then (kv.1, v) else kv)⟩
  else ⟨d.entries ++ [(key, v)]⟩

/-- The conversions of the dictionary's value type `V` that `serialize(var)` relies on:
`dict[key] = var` stores `of... var`, and `var = dict[key]` assigns `to... (dict[key])`.
They belong to the template parameter `DictType`. -/
structure ValueConv (V Params Sampler Options : Type) where
  ofParams : Params → V
  toParams : V → Params
  ofUInt32 : Nat → V
  toUInt32 : V → Nat
  ofSampler : Sampler → V
  toSampler : V → Sampler
  ofOptions : Options → V
  toOptions : V → Options

/-- The data members of `PathTracer`. The types `PathTracerParams`,
`EmissiveLightSamplerType` and `EmissiveUniformSamplerOptions` are declared elsewhere and
are type parameters; shared pointers are identifiers (`none` for a null pointer). -/
structure PathTracer (Params Sampler Options : Type) where
  mpScene : Option Nat
  mpSampleGenerator : Option Nat
  mpEmissiveSampler : Option Nat
  mpEnvProbe : Option Nat
  mEnvProbeFilename : String
  mStatsLogger : Option Nat
  mPixelDebugger : Option Nat
  mSharedParams : Params
  mSelectedSampleGenerator : Nat
  mSelectedEmissiveSampler : Sampler
  mUniformSamplerOptions : Options
  mOptionsChanged : Bool
  mUseAnalyticLights : Bool
  mUseEnvLight : Bool
  mUseEmissiveLights : Bool
  mUseEmissiveSampler : Bool
  mMaxRaysPerPixel : Nat
  deriving DecidableEq

/-- What `serializePass` works on: the dictionary, the pass, the local set `vars`, and the
warnings logged. -/
structure SerializeState (V Params Sampler Options : Type) where
  dict : Dictionary V
  pass : PathTracer Params Sampler Options
  vars : List String
  log : List String

/-- The macro `serialize(var)`, for a member named `key` that is stored by `store` and
assigned by `load`. None of the four members is a `std::string`, so the assignment
compiled for them is `var = dict[#var]`. -/
def serialize {V Params Sampler Options : Type} (loadFromDict : Bool) (key : String)
    (store : PathTracer Params Sampler Options → V)
    (load : V → PathTracer Params Sampler Options → PathTracer Params Sampler Options)
    (st : SerializeState V Params Sampler Options) : SerializeState V Params Sampler Options :=
  if !loadFromDict then { st with dict := st.dict.assign key (store st.pass) }
  else if st.dict.keyExists key then
    match st.dict.find? key with
    | some v => { st with pass := load v st.pass, vars := st.vars.insert key }
    | none => st
  else st

/-- The message of the warning of `serializePass`. -/
def unknownFieldWarning (key : String) : String :=
  "Unknown field `" ++ key ++ "` in a PathTracer dictionary"

/-- The loop `for (const auto& v : dict)` of `serializePass<true>`. -/
def warnUnknown {V : Type} (vars : List String) (entries : List (String × V))
    (log : List String) : List String :=
  entries.foldl (fun log v => if v.1 ∉ vars then log ++ [unknownFieldWarning v.1] else log) log

/-- The template `PathTracer::serializePass<loadFromDict>(dict)`, run with the warnings
logged so far; it yields the dictionary, the pass and the log afterwards. -/
def serializePass {V Params Sampler Options : Type} (conv : ValueConv V Params Sampler Options)
    (loadFromDict : Bool) (dict : Dictionary V) (pass : PathTracer Params Sampler Options)
    (log : List String) : Dictionary V × PathTracer Params Sampler Options × List String :=
  let st : SerializeState V Params Sampler Options :=
    { dict := dict, pass := pass, vars := [], log := log }
  let st := serialize loadFromDict "mSharedParams"
    (fun p => conv.ofParams p.mSharedParams)
    (fun v p => { p with mSharedParams := conv.toParams v }) st
  let st := serialize loadFromDict "mSelectedSampleGenerator"
    (fun p => conv.ofUInt32 p.mSelectedSampleGenerator)
    (fun v p => { p with mSelectedSampleGenerator := conv.toUInt32 v }) st
  let st := serialize loadFromDict "mSelectedEmissiveSampler"
    (fun p => conv.ofSampler p.mSelectedEmissiveSampler)
    (fun v p => { p with mSelectedEmissiveSampler := conv.toSampler v }) st
  let st := serialize loadFromDict "mUniformSamplerOptions"
    (fun p => conv.ofOptions p.mUniformSamplerOptions)
    (fun v p => { p with mUniformSamplerOptions := conv.toOptions v }) st
  if loadFromDict then (st.dict, st.pass, warnUnknown st.vars st.dict.entries st.log)
  else (st.dict, st.pass, st.log)

/-- The method `PathTracer::onKeyEvent`, which returns false. -/
def PathTracer.onKeyEvent {Params Sampler Options : Type}
    (p : PathTracer Params Sampler Options) (log : List String) :
    Bool × PathTracer Params Sampler Options × List String := (false, p, log)

/-- The method `PathTracer::recreateVars`, whose body is empty. -/
def PathTracer.recreateVars {Params Sampler Options : Type}
    (p : PathTracer Params Sampler Options) (log : List String) :
    PathTracer Params Sampler Options × List String := (p, log)

/-- The names of the four members `serializePass` hands to `serialize`. -/
def serializedKeys : List String :=
  ["mSharedParams", "mSelectedSampleGenerator", "mSelectedEmissiveSampler",
    "mUniformSamplerOptions"]

/-! ## Reachable editor states -/

/-- The editor states reached from the constructor by `onLoad`, followed by any number of
`createRenderGraph` calls and "Open Graph" selections; a selection is the value of one
of the entries of the drop-down list, as the `uint32_t` the GUI hands back. -/
inductive Reachable : EditorState → Prop where
  | onLoad (showCreateGraphWindow : Bool) (pSample : Nat) (s : EditorState) :
      onLoad pSample (RenderGraphEditor showCreateGraphWindow) = some s → Reachable s
  | createRenderGraph (renderGraphName renderGraphNameFileName : String)
      (s s' : EditorState) :
      Reachable s → createRenderGraph renderGraphName renderGraphNameFileName s = some s' →
      Reachable s'
  | openGraph (d : DropdownValue) (s s' : EditorState) :
      Reachable s → d ∈ s.mOpenGraphNames →
      onGuiRender_openGraph (some (toUInt32 d.value)) s = some s' → Reachable s'

/-- The bookkeeping of the open graphs: the three lists have one common, non-zero length,
the drop-down entry at position `i` carries `static_cast<int32_t>(i)`, the current index
is inside the lists, and `mpLastSample` is set. -/
def Bookkeeping (s : EditorState) : Prop :=
  s.mOpenGraphNames.length = s.mpGraphs.length ∧
  s.mRenderGraphUIs.length = s.mpGraphs.length ∧
  s.mpGraphs.length ≠ 0 ∧
  (∀ i d, s.mOpenGraphNames[i]? = some d → d.value = toInt32 i) ∧
  s.mCurrentGraphIndex < s.mpGraphs.length ∧
  s.mpLastSample ≠ none

/-- The call `createRenderGraph(name, "")` made `n` times in a row. -/
def createGraphs (name : String) : Nat → EditorState → Option EditorState
  | 0, s => some s
  | n + 1, s =>
    match createRenderGraph name "" s with
    | none => none
    | some s' => createGraphs name n s'

/-! ## Concrete states used to exercise the theorems -/

/-- A value type for dictionaries: a tagged union of a parameter block (two numbers
here), a `uint32_t`, a sampler type and an option block (a flag each). -/
inductive ExampleValue where
  | params (p : Nat × Nat)
  | uint (n : Nat)
  | sampler (uniform : Bool)
  | options (o : Bool)
  deriving DecidableEq

/-- Conversions for `ExampleValue`: a value is stored under its own tag, and read back
from that tag (a default stands for a value of another tag). -/
def exampleConv : ValueConv ExampleValue (Nat × Nat) Bool Bool :=
  { ofParams := .params
    toParams := fun v => match v with
      | .params p => p
      | _ => (0, 0)
    ofUInt32 := .uint
    toUInt32 := fun v => match v with
      | .uint n => n
      | _ => 0
    ofSampler := .sampler
    toSampler := fun v => match v with
      | .sampler b => b
      | _ => true
    ofOptions := .options
    toOptions := fun v => match v with
      | .options o => o
      | _ => false }

/-- A path tracer with the given configuration and the runtime data of the class
declaration. -/
def examplePass (params : Nat × Nat) (generator : Nat) (sampler options : Bool) :
    PathTracer (Nat × Nat) Bool Bool :=
  { mpScene := none
    mpSampleGenerator := none
    mpEmissiveSampler := none
    mpEnvProbe := none
    mEnvProbeFilename := ""
    mStatsLogger := none
    mPixelDebugger := none
    mSharedParams := params
    mSelectedSampleGenerator := generator
    mSelectedEmissiveSampler := sampler
    mUniformSamplerOptions := options
    mOptionsChanged := false
    mUseAnalyticLights := false
    mUseEnvLight := false
    mUseEmissiveLights := false
    mUseEmissiveSampler := false
    mMaxRaysPerPixel := 0 }

/-- The editor right after the constructor and `onLoad` (see `onLoad_constructed`). -/
def loadedEditor : EditorState :=
  { mOpenGraphNames := [{ value := 0, label := "DefaultRenderGraph" }]
    mpGraphs := [{ calls := [.setScene .null, .setScene (.loadedFromFile gkDefaultScene),
      .setOutput "BlitPass.dst", .onResizeSwapChain] }]
    mRenderGraphUIs := [{ graph := 0, calls := [] }]
    mCurrentGraphIndex := 0
    mCreatingRenderGraph := false
    mPreviewing := false
    mShowCreateGraphWindow := false
    mNextGraphString := resize "" 255 (Char.ofNat 0)
    mCurrentGraphOutput := "BlitPass.dst"
    mGraphOutputEditString := resize "BlitPass.dst" 255 (Char.ofNat 0)
    mpLastSample := some 0
    mCamControl := [.loadedFromFile gkDefaultScene]
    sRebuildDisplayData := true
    log := [] }

/-- One frame of the GUI: the user loads `C:\graphs\forward.py` from the "File" menu and
presses "Update"; everything else is left alone. -/
def exampleFrame : GuiFrame :=
  { beginMainMenuBar := true
    fileMenu := true
    createNewGraphItem := false
    loadGraphItem := true
    loadGraphDialog := some "C:\\graphs\\forward.py"
    saveGraphItem := false
    saveGraphDialog := none
    runScriptItem := false
    runScriptDialog := none
    openGraphDropdown := none
    previewButton := false
    sGraphOutputString := "0"
    updateTextBox := true
    graphNameText := none
    createGraphButton := false
    cancelButton := false }

/-! # Theorems -/

/-! ## Strings -/

theorem lastIndex?_eq_none {c : Char} {l : List Char} : lastIndex? c l = none ↔ c ∉ l := by
  induction l with
  | nil => simp [lastIndex?]
  | cons x xs ih =>
    cases h : lastIndex? c xs with
    | none =>
      have hx := ih.mp h
      by_cases hxc : x = c
      · simp [lastIndex?, h, hxc]
      · have hcx : ¬ c = x := fun e => hxc e.symm
        simp [lastIndex?, h, hxc, hx, hcx]
    | some i =>
      have hx : ¬ c ∉ xs := fun hn => by
        have := ih.mpr hn
        rw [h] at this
        cases this
      have hx2 : c ∈ xs := not_not.mp hx
      simp [lastIndex?, h, hx2]

theorem lastIndex?_eq_some {c : Char} {l : List Char} {i : Nat} (h : lastIndex? c l = some i) :
    i < l.length ∧ l[i]? = some c ∧ c ∉ l.drop (i + 1) := by
  induction l generalizing i with
  | nil => simp [lastIndex?] at h
  | cons x xs ih =>
    cases hxs : lastIndex? c xs with
    | none =>
      have hnot := lastIndex?_eq_none.mp hxs
      by_cases hxc : x = c
      · simp [lastIndex?, hxs, hxc] at h
        subst h
        simp [hxc, hnot]
      · simp [lastIndex?, hxs, hxc] at h
    | some j =>
      simp [lastIndex?, hxs] at h
      subst h
      obtain ⟨h1, h2, h3⟩ := ih hxs
      refine ⟨by simpa using h1, by simpa using h2, by simpa using h3⟩

theorem nameOffset_spec (s : String) (hs : s.length < 2 ^ 64) :
    ((Char.ofNat 92 ∉ s.data ∧ nameOffset s = 0) ∨
      (0 < nameOffset s ∧ s.data[nameOffset s - 1]? = some (Char.ofNat 92))) ∧
    Char.ofNat 92 ∉ s.data.drop (nameOffset s) ∧ nameOffset s ≤ s.length := by
  unfold nameOffset find_last_of
  cases h : lastIndex? (Char.ofNat 92) s.data with
  | none =>
    have hn := lastIndex?_eq_none.mp h
    have h0 : wrapSize (npos + 1) = 0 := by decide
    simp only [h0]
    exact ⟨Or.inl ⟨hn, trivial⟩, by simpa using hn, Nat.zero_le _⟩
  | some i =>
    obtain ⟨h1, h2, h3⟩ := lastIndex?_eq_some h
    have hlen : s.data.length = s.length := rfl
    have hw : wrapSize (i + 1) = i + 1 := by
      unfold wrapSize
      apply Nat.mod_eq_of_lt
      omega
    simp only [hw]
    exact ⟨Or.inr ⟨Nat.succ_pos _, by simpa using h2⟩, h3, by omega⟩

theorem fileExtOffset_spec (s : String) (hs : s.length < 2 ^ 64) :
    (('.' ∉ s.data ∧ fileExtOffset s = s.length) ∨
      (s.data[fileExtOffset s]? = some '.' ∧ '.' ∉ s.data.drop (fileExtOffset s + 1))) ∧
    fileExtOffset s ≤ s.length := by
  unfold fileExtOffset find_last_of
  cases h : lastIndex? '.' s.data with
  | none =>
    have hn := lastIndex?_eq_none.mp h
    simp only [if_true]
    exact ⟨Or.inl ⟨hn, trivial⟩, Nat.le_refl _⟩
  | some i =>
    obtain ⟨h1, h2, h3⟩ := lastIndex?_eq_some h
    have hlen : s.data.length = s.length := rfl
    have hne : i ≠ npos := by
      unfold npos
      omega
    simp only [hne, if_false]
    exact ⟨Or.inr ⟨h2, h3⟩, by omega⟩

/-- C6. The name the "Load Graph" item derives from a file path `s`: with `b` just after
the last backslash (0 without one) and `e` at the last `.` (the size without one),
`substr` stays in range, the name is `s[b, e)` when `b ≤ e` and `s[b, |s|)` when `e < b`,
it holds no backslash, and `createRenderGraph` gets it together with `s` itself. -/
theorem loadGraph_name (s : String) (hs : s.length < 2 ^ 64) (st : EditorState) :
    ((Char.ofNat 92 ∉ s.data ∧ nameOffset s = 0) ∨
      (0 < nameOffset s ∧ s.data[nameOffset s - 1]? = some (Char.ofNat 92))) ∧
    Char.ofNat 92 ∉ s.data.drop (nameOffset s) ∧
    (('.' ∉ s.data ∧ fileExtOffset s = s.length) ∨
      (s.data[fileExtOffset s]? = some '.' ∧ '.' ∉ s.data.drop (fileExtOffset s + 1))) ∧
    nameOffset s ≤ s.length ∧
    ∃ name : String, loadGraphName s = some name ∧
      (nameOffset s ≤ fileExtOffset s →
        name.data = (s.data.drop (nameOffset s)).take (fileExtOffset s - nameOffset s)) ∧
      (fileExtOffset s < nameOffset s → name.data = s.data.drop (nameOffset s)) ∧
      Char.ofNat 92 ∉ name.data ∧
      onGuiRender_loadGraph (some s) st = createRenderGraph name s st := by
  obtain ⟨hb1, hb2, hb3⟩ := nameOffset_spec s hs
  obtain ⟨he1, he2⟩ := fileExtOffset_spec s hs
  refine ⟨hb1, hb2, he1, hb3, ?_⟩
  have hlen : s.data.length = s.length := rfl
  have hsub : loadGraphName s = some ⟨(s.data.drop (nameOffset s)).take
      (min (subSize (fileExtOffset s) (nameOffset s)) (s.length - nameOffset s))⟩ := by
    unfold loadGraphName substr
    rw [if_neg (by omega)]
  refine ⟨_, hsub, ?_, ?_, ?_, ?_⟩
  · intro hle
    have hc : subSize (fileExtOffset s) (nameOffset s) = fileExtOffset s - nameOffset s := by
      unfold subSize
      have : fileExtOffset s + 2 ^ 64 - nameOffset s
          = (fileExtOffset s - nameOffset s) + 2 ^ 64 := by omega
      rw [this, Nat.add_mod_right]
      apply Nat.mod_eq_of_lt
      omega
    show List.take _ _ = _
    rw [hc, Nat.min_eq_left (by omega)]
  · intro hlt
    have hc : s.length - nameOffset s ≤ subSize (fileExtOffset s) (nameOffset s) := by
      unfold subSize
      rw [Nat.mod_eq_of_lt (by omega)]
      omega
    show List.take _ _ = _
    rw [Nat.min_eq_right hc]
    apply List.take_of_length_le
    simp
  · show Char.ofNat 92 ∉ List.take _ _
    intro hmem
    exact hb2 (List.mem_of_mem_take hmem)
  · simp only [onGuiRender_loadGraph, hsub]

/-- The path `C:\graphs\forward.v2.py` yields the name `forward.v2`; in `dir.v1\graph`
the only `.` stands before the backslash, and the name is the remainder `graph`. -/
theorem loadGraph_name_witness :
    ("C:\\graphs\\forward.v2.py".length < 2 ^ 64) ∧
    loadGraphName "C:\\graphs\\forward.v2.py" = some "forward.v2" ∧
    loadGraphName "dir.v1\\graph" = some "graph" ∧
    ∃ name : String, loadGraphName "C:\\graphs\\forward.v2.py" = some name ∧
      Char.ofNat 92 ∉ name.data :=
  have h := loadGraph_name "C:\\graphs\\forward.v2.py" (by decide) (RenderGraphEditor false)
  ⟨by decide, by decide, by decide, h.2.2.2.2.imp fun _ hn => ⟨hn.1, hn.2.2.2.1⟩⟩

/-! ## Calls on the current graph -/

theorem callGraph_eq {i : Nat} {c : GraphCall} {s : EditorState} {g : RenderGraph}
    (h : s.mpGraphs[i]? = some g) :
    callGraph i c s = some { s with mpGraphs := s.mpGraphs.set i { calls := g.calls ++ [c] } } := by
  simp [callGraph, h]

theorem callUI_eq {i : Nat} {c : UICall} {s : EditorState} {u : RenderGraphUI}
    (h : s.mRenderGraphUIs[i]? = some u) :
    callUI i c s = some { s with
      mRenderGraphUIs := s.mRenderGraphUIs.set i { u with calls := u.calls ++ [c] } } := by
  simp [callUI, h]

theorem getElem?_set_self {α : Type} {l : List α} {i : Nat} {a b : α}
    (h : l[i]? = some a) : (l.set i b)[i]? = some b := by
  have hi : i < l.length := by
    by_contra hn
    have : l[i]? = none := List.getElem?_eq_none (by omega)
    rw [this] at h
    cases h
  simp [List.getElem?_set, hi]

/-- C1. With a valid current graph, `createAndAddConnection` asks that graph once, for the
edge from `srcRenderPass.srcField` to `dstRenderPass.dstField`, touches nothing else, and
logs the one warning with the text of the source exactly when `addEdge` answers false. -/
theorem createAndAddConnection_spec (addEdge : RenderGraph → String → String → Bool)
    (srcRenderPass dstRenderPass srcField dstField : String) (s : EditorState)
    (g : RenderGraph) (hg : s.mpGraphs[s.mCurrentGraphIndex]? = some g) :
    createAndAddConnection addEdge srcRenderPass dstRenderPass srcField dstField s =
      some { s with
        mpGraphs := s.mpGraphs.set s.mCurrentGraphIndex
          { calls := g.calls ++
              [GraphCall.addEdge (srcRenderPass ++ "." ++ srcField)
                (dstRenderPass ++ "." ++ dstField)] }
        log := s.log ++
          (if addEdge g (srcRenderPass ++ "." ++ srcField) (dstRenderPass ++ "." ++ dstField)
              = false then
            ["Failed to create edge between nodes: " ++ srcRenderPass ++ " and " ++
              dstRenderPass ++ " connecting fields " ++ srcField ++ " to " ++ dstField ++
              ".\n"]
          else []) } := by
  unfold createAndAddConnection
  rw [hg]
  simp only [callGraph_eq hg]
  cases h : addEdge g (srcRenderPass ++ "." ++ srcField) (dstRenderPass ++ "." ++ dstField)
  · simp [logWarning]
    rfl
  · simp

theorem resize_length (s : String) (n : Nat) (c : Char) : (resize s n c).length = n := by
  show (s.data.take n ++ List.replicate (n - s.length) c).length = n
  have hlen : s.data.length = s.length := rfl
  simp only [List.length_append, List.length_take, List.length_replicate]
  omega

theorem onLoad_constructed : onLoad 0 (RenderGraphEditor false) = some loadedEditor := by
  rfl

/-- A rejected edge from `GBufferPass.color` to `BlitPass.src` in the editor right after
`onLoad`: one `addEdge` request, one warning. -/
theorem createAndAddConnection_witness :
    loadedEditor.mpGraphs[loadedEditor.mCurrentGraphIndex]? =
      some { calls := [.setScene .null, .setScene (.loadedFromFile gkDefaultScene),
        .setOutput "BlitPass.dst", .onResizeSwapChain] } ∧
    (createAndAddConnection (fun _ _ _ => false) "GBufferPass" "BlitPass" "color" "src"
        loadedEditor).map (fun s => (s.mpGraphs, s.log)) =
      some ([{ calls := [.setScene .null, .setScene (.loadedFromFile gkDefaultScene),
          .setOutput "BlitPass.dst", .onResizeSwapChain,
          .addEdge "GBufferPass.color" "BlitPass.src"] }],
        ["Failed to create edge between nodes: GBufferPass and BlitPass connecting fields color to src.\n"]) :=
  ⟨rfl, by
    rw [createAndAddConnection_spec (fun _ _ _ => false) "GBufferPass" "BlitPass" "color" "src"
      loadedEditor _ rfl]
    rfl⟩

/-! ## The "Update" text box -/

/-- C8. When the "Update" text box reports an update in a state with a valid current
graph: with `mCurrentGraphOutput` equal to `mGraphOutputEditString` nothing is called and
nothing changes; otherwise the current graph receives `unmarkGraphOutput(old output)`,
`markGraphOutput(edit string)`, `setOutput(edit string)` in this order, only
`mCurrentGraphOutput` changes among the members, it ends equal to the edit string, and a
second update is then without effect. The constructor leaves `mCurrentGraphOutput` at
`BlitPass.dst` and the edit string at that text resized to 255 characters. -/
theorem graphOutput_update (s : EditorState) (g : RenderGraph)
    (hg : s.mpGraphs[s.mCurrentGraphIndex]? = some g) :
    (s.mCurrentGraphOutput = s.mGraphOutputEditString →
      onGuiRender_graphOutput true s = some s) ∧
    (s.mCurrentGraphOutput ≠ s.mGraphOutputEditString →
      ∃ s', onGuiRender_graphOutput true s = some s' ∧
        s' = { s with
          mpGraphs := s.mpGraphs.set s.mCurrentGraphIndex
            { calls := g.calls ++ [.unmarkGraphOutput s.mCurrentGraphOutput,
                .markGraphOutput s.mGraphOutputEditString,
                .setOutput s.mGraphOutputEditString] }
          mCurrentGraphOutput := s.mGraphOutputEditString } ∧
        s'.mCurrentGraphOutput = s'.mGraphOutputEditString ∧
        onGuiRender_graphOutput true s' = some s') ∧
    (∀ b, (RenderGraphEditor b).mCurrentGraphOutput = "BlitPass.dst" ∧
      (RenderGraphEditor b).mGraphOutputEditString = resize "BlitPass.dst" 255 (Char.ofNat 0) ∧
      (RenderGraphEditor b).mGraphOutputEditString.length = 255) := by
  refine ⟨?_, ?_, ?_⟩
  · intro heq
    simp [onGuiRender_graphOutput, heq]
  · intro hne
    refine ⟨_, ?_, rfl, rfl, ?_⟩
    · unfold onGuiRender_graphOutput
      simp only [if_true, ne_eq, hne, not_false_eq_true]
      have hi : s.mCurrentGraphIndex < s.mpGraphs.length := by
        by_contra hn
        rw [List.getElem?_eq_none (by omega)] at hg
        cases hg
      simp [bind, Option.bind, callGraph, hg, List.getElem?_set, hi]
    · simp [onGuiRender_graphOutput]
  · intro b
    exact ⟨rfl, rfl, resize_length _ _ _⟩

/-- The first update after the constructor and `onLoad`: the two strings differ (12 and
255 characters), so the graph gets the three calls, and a second update does nothing. -/
theorem graphOutput_update_witness :
    loadedEditor.mCurrentGraphOutput ≠ loadedEditor.mGraphOutputEditString ∧
    ∃ s', onGuiRender_graphOutput true loadedEditor = some s' ∧
      s'.mpGraphs = [{ calls := [.setScene .null, .setScene (.loadedFromFile gkDefaultScene),
        .setOutput "BlitPass.dst", .onResizeSwapChain,
        .unmarkGraphOutput "BlitPass.dst",
        .markGraphOutput (resize "BlitPass.dst" 255 (Char.ofNat 0)),
        .setOutput (resize "BlitPass.dst" 255 (Char.ofNat 0))] }] ∧
      s'.mCurrentGraphOutput = resize "BlitPass.dst" 255 (Char.ofNat 0) ∧
      onGuiRender_graphOutput true s' = some s' := by
  have hne : loadedEditor.mCurrentGraphOutput ≠ loadedEditor.mGraphOutputEditString := by
    intro h
    have hlen := congrArg String.length h
    have h255 : loadedEditor.mGraphOutputEditString.length = 255 := resize_length _ _ _
    rw [h255] at hlen
    revert hlen
    decide
  obtain ⟨s', h1, h2, _, h4⟩ := (graphOutput_update loadedEditor _ rfl).2.1 hne
  refine ⟨hne, s', h1, ?_, ?_, h4⟩
  · rw [h2]; rfl
  · rw [h2]; rfl

/-! ## Bookkeeping of the open graphs -/

theorem set_concat_length {α : Type} (l : List α) (a b : α) :
    (l ++ [a]).set l.length b = l ++ [b] := by
  induction l with
  | nil => rfl
  | cons x xs ih => simp [List.set, ih]

theorem callGraph_last {c : GraphCall} {s : EditorState} {l : List RenderGraph}
    {g : RenderGraph} (h : s.mpGraphs = l ++ [g]) :
    callGraph l.length c s = some { s with mpGraphs := l ++ [{ calls := g.calls ++ [c] }] } := by
  unfold callGraph
  rw [h, List.getElem?_concat_length]
  simp only [set_concat_length]

/-- The calls a graph created by `createRenderGraph` receives before the method returns. -/
theorem createRenderGraph_eq (renderGraphName renderGraphNameFileName : String)
    (s : EditorState) (p : Nat) (hp : s.mpLastSample = some p) :
    createRenderGraph renderGraphName renderGraphNameFileName s =
      some { s with
        mOpenGraphNames := s.mOpenGraphNames ++
          [{ value := toInt32 s.mOpenGraphNames.length, label := renderGraphName }]
        mpGraphs := s.mpGraphs ++ [{ calls :=
          (if renderGraphNameFileName.length ≠ 0
            then [GraphCall.loadAndRunScript renderGraphNameFileName] else []) ++
          (if 1 ≤ s.mpGraphs.length then [GraphCall.setScene (.sceneOfGraph 0)]
            else [GraphCall.setScene .null, GraphCall.setScene (.loadedFromFile gkDefaultScene)]) ++
          [GraphCall.setOutput s.mCurrentGraphOutput, GraphCall.onResizeSwapChain] }]
        mRenderGraphUIs := s.mRenderGraphUIs ++ [{ graph := s.mpGraphs.length, calls := [] }]
        mCurrentGraphIndex := s.mpGraphs.length
        mCamControl := s.mCamControl ++
          (if 1 ≤ s.mpGraphs.length then [] else [SceneArg.loadedFromFile gkDefaultScene])
        mCreatingRenderGraph := false
        sRebuildDisplayData := true } := by
  unfold createRenderGraph
  by_cases hf : renderGraphNameFileName.length = 0 <;> by_cases hl : 1 ≤ s.mpGraphs.length <;>
    simp [hf, hl, hp, bind, Option.bind, loadScene, callGraph_last (l := s.mpGraphs)]

theorem toUInt32_toInt32 (n : Nat) : toUInt32 (toInt32 n) = n % 2 ^ 32 := by
  unfold toUInt32 toInt32
  split <;> omega

theorem toInt32_small (n : Nat) (h : n < 2 ^ 31) : toInt32 n = (n : Int) := by
  unfold toInt32
  have h1 : n % 2 ^ 32 = n := Nat.mod_eq_of_lt (by omega)
  rw [h1, if_pos h]

theorem bookkeeping_onLoad (b : Bool) (pSample : Nat) (s : EditorState)
    (h : onLoad pSample (RenderGraphEditor b) = some s) : Bookkeeping s := by
  unfold onLoad at h
  rw [createRenderGraph_eq _ _ _ pSample rfl] at h
  cases h
  refine ⟨rfl, rfl, by simp [RenderGraphEditor], ?_, by simp [RenderGraphEditor], by simp⟩
  intro i d hd
  cases i with
  | zero =>
    simp [RenderGraphEditor] at hd
    subst hd
    rfl
  | succ k => simp [RenderGraphEditor] at hd

theorem bookkeeping_createRenderGraph (renderGraphName renderGraphNameFileName : String)
    (s : EditorState) (h : Bookkeeping s) :
    ∃ s', createRenderGraph renderGraphName renderGraphNameFileName s = some s' ∧
      Bookkeeping s' ∧
      s'.mOpenGraphNames.length = s.mOpenGraphNames.length + 1 ∧
      s'.mpGraphs.length = s.mpGraphs.length + 1 ∧
      s'.mRenderGraphUIs.length = s.mRenderGraphUIs.length + 1 ∧
      s'.mCurrentGraphIndex = s.mpGraphs.length ∧
      s'.mCurrentGraphIndex + 1 = s'.mpGraphs.length := by
  obtain ⟨h1, h2, h3, h4, h5, h6⟩ := h
  obtain ⟨p, hp⟩ := Option.ne_none_iff_exists'.mp h6
  refine ⟨_, createRenderGraph_eq _ _ s p hp, ?_, ?_, ?_, ?_, rfl, ?_⟩
  · refine ⟨?_, ?_, ?_, ?_, ?_, ?_⟩
    · simp [h1]
    · simp [h2]
    · simp
    · intro i d hd
      simp only at hd
      by_cases hi : i < s.mOpenGraphNames.length
      · rw [List.getElem?_append_left hi] at hd
        exact h4 i d hd
      · by_cases hi2 : i = s.mOpenGraphNames.length
        · subst hi2
          rw [List.getElem?_concat_length] at hd
          cases hd
          rfl
        · rw [List.getElem?_eq_none (by simp; omega)] at hd
          cases hd
    · simp
    · simp [hp]
  · simp
  · simp
  · simp
  · simp

theorem bookkeeping_openGraph (d : DropdownValue) (s : EditorState) (h : Bookkeeping s)
    (hd : d ∈ s.mOpenGraphNames) :
    ∃ s', onGuiRender_openGraph (some (toUInt32 d.value)) s = some s' ∧ Bookkeeping s' ∧
      s'.mOpenGraphNames = s.mOpenGraphNames ∧ s'.mpGraphs = s.mpGraphs ∧
      s'.mRenderGraphUIs.length = s.mRenderGraphUIs.length := by
  obtain ⟨h1, h2, h3, h4, h5, h6⟩ := h
  obtain ⟨j, hj⟩ := List.getElem?_of_mem hd
  have hjlt : j < s.mOpenGraphNames.length := by
    by_contra hn
    rw [List.getElem?_eq_none (by omega)] at hj
    cases hj
  have hv : toUInt32 d.value = j % 2 ^ 32 := by
    rw [h4 j d hj, toUInt32_toInt32]
  have hle : j % 2 ^ 32 ≤ j := Nat.mod_le _ _
  have hlt : j % 2 ^ 32 < s.mRenderGraphUIs.length := by omega
  have hne : s.mOpenGraphNames.length ≠ 0 := by omega
  unfold onGuiRender_openGraph
  rw [hv]
  simp only [hne, ne_eq, not_false_eq_true, if_true]
  have hget : s.mRenderGraphUIs[j % 2 ^ 32]? = some (s.mRenderGraphUIs[j % 2 ^ 32]) :=
    List.getElem?_eq_getElem hlt
  refine ⟨_, callUI_eq (s := { s with mCurrentGraphIndex := j % 2 ^ 32 }) hget, ?_, rfl, rfl, ?_⟩
  · refine ⟨h1, ?_, h3, h4, ?_, h6⟩
    · simp [h2]
    · show j % 2 ^ 32 < s.mpGraphs.length
      omega
  · simp

theorem reachable_bookkeeping_aux {s : EditorState} (h : Reachable s) : Bookkeeping s := by
  induction h with
  | onLoad b pSample s h => exact bookkeeping_onLoad b pSample s h
  | createRenderGraph name file s s' _ hc ih =>
    obtain ⟨t, ht, hb, _⟩ := bookkeeping_createRenderGraph name file s ih
    rw [ht] at hc
    cases hc
    exact hb
  | openGraph d s s' _ hd ho ih =>
    obtain ⟨t, ht, hb, _⟩ := bookkeeping_openGraph d s ih hd
    rw [ht] at ho
    cases ho
    exact hb

theorem createGraphs_reachable (name : String) (n : Nat) (s : EditorState) (h : Reachable s) :
    ∃ s', createGraphs name n s = some s' ∧ Reachable s' ∧
      s'.mOpenGraphNames.length = s.mOpenGraphNames.length + n := by
  induction n generalizing s with
  | zero => exact ⟨s, rfl, h, rfl⟩
  | succ k ih =>
    obtain ⟨t, ht, _, hlen, _⟩ :=
      bookkeeping_createRenderGraph name "" s (reachable_bookkeeping_aux h)
    obtain ⟨s', hs', hr, hl⟩ := ih t (Reachable.createRenderGraph name "" s t h ht)
    refine ⟨s', ?_, hr, by omega⟩
    simp only [createGraphs, ht]
    exact hs'

theorem reachable_loadedEditor : Reachable loadedEditor :=
  Reachable.onLoad false 0 loadedEditor onLoad_constructed

/-- C7, as the code has it. In every state reached from `onLoad` by `createRenderGraph`
calls and "Open Graph" selections, the three lists have one non-zero length, the entry at
position `i` of `mOpenGraphNames` has the value `static_cast<int32_t>(i)`, which is `i`
for `i < 2 ^ 31`, and `mCurrentGraphIndex` is below that length; every `createRenderGraph`
call returns, grows each list by exactly one and leaves `mCurrentGraphIndex` at the new
graph, the last one; every selection of an entry returns too. -/
theorem reachable_bookkeeping (s : EditorState) (h : Reachable s) :
    s.mOpenGraphNames.length = s.mpGraphs.length ∧
    s.mRenderGraphUIs.length = s.mpGraphs.length ∧
    s.mpGraphs.length ≠ 0 ∧
    (∀ i d, s.mOpenGraphNames[i]? = some d →
      d.value = toInt32 i ∧ (i < 2 ^ 31 → d.value = (i : Int))) ∧
    s.mCurrentGraphIndex < s.mpGraphs.length ∧
    (∀ renderGraphName renderGraphNameFileName, ∃ s',
      createRenderGraph renderGraphName renderGraphNameFileName s = some s' ∧
      s'.mOpenGraphNames.length = s.mOpenGraphNames.length + 1 ∧
      s'.mpGraphs.length = s.mpGraphs.length + 1 ∧
      s'.mRenderGraphUIs.length = s.mRenderGraphUIs.length + 1 ∧
      s'.mCurrentGraphIndex = s.mpGraphs.length ∧
      s'.mCurrentGraphIndex + 1 = s'.mpGraphs.length) ∧
    (∀ d ∈ s.mOpenGraphNames, ∃ s',
      onGuiRender_openGraph (some (toUInt32 d.value)) s = some s' ∧
      s'.mCurrentGraphIndex = toUInt32 d.value ∧
      s'.mOpenGraphNames = s.mOpenGraphNames ∧ s'.mpGraphs = s.mpGraphs ∧
      s'.mRenderGraphUIs.length = s.mRenderGraphUIs.length) := by
  have hb := reachable_bookkeeping_aux h
  obtain ⟨h1, h2, h3, h4, h5, _⟩ := id hb
  refine ⟨h1, h2, h3, ?_, h5, ?_, ?_⟩
  · intro i d hd
    have hv := h4 i d hd
    exact ⟨hv, fun hi => by rw [hv, toInt32_small i hi]⟩
  · intro name file
    obtain ⟨s', hs', _, r1, r2, r3, r4, r5⟩ := bookkeeping_createRenderGraph name file s hb
    exact ⟨s', hs', r1, r2, r3, r4, r5⟩
  · intro d hd
    obtain ⟨s', hs', _, r1, r2, r3⟩ := bookkeeping_openGraph d s hb hd
    refine ⟨s', hs', ?_, r1, r2, r3⟩
    have hne : s.mOpenGraphNames.length ≠ 0 := by omega
    unfold onGuiRender_openGraph at hs'
    simp only [hne, ne_eq, not_false_eq_true, if_true] at hs'
    unfold callUI at hs'
    split at hs'
    · cases hs'
    · cases hs'
      rfl

/-- The editor right after `onLoad` is reachable: one graph, named by entry 0, current. -/
theorem reachable_bookkeeping_witness :
    Reachable loadedEditor ∧
    loadedEditor.mOpenGraphNames.length = 1 ∧ loadedEditor.mpGraphs.length = 1 ∧
    loadedEditor.mRenderGraphUIs.length = 1 ∧ loadedEditor.mCurrentGraphIndex < 1 ∧
    ∃ s', createRenderGraph "Second" "" loadedEditor = some s' ∧
      s'.mpGraphs.length = 2 ∧ s'.mCurrentGraphIndex = 1 :=
  have h := reachable_bookkeeping loadedEditor reachable_loadedEditor
  ⟨reachable_loadedEditor, rfl, rfl, rfl, h.2.2.2.2.1,
    (h.2.2.2.2.2.1 "Second" "").imp fun _ hs => ⟨hs.1, hs.2.2.1, hs.2.2.2.2.1⟩⟩

/-- Counterexample to C7 as written, with `2 ^ 31 + 1` graphs open: after `onLoad` and
`2 ^ 31` further `createRenderGraph` calls the entry at position `2 ^ 31` of
`mOpenGraphNames` has the value `-2 ^ 31`, the result of `static_cast<int32_t>`, not
`2 ^ 31`. -/
theorem bookkeeping_counterexample :
    ∃ s d, createGraphs "Graph" (2 ^ 31) loadedEditor = some s ∧ Reachable s ∧
      s.mOpenGraphNames[2 ^ 31]? = some d ∧ d.value = -2147483648 ∧
      d.value ≠ ((2 ^ 31 : Nat) : Int) := by
  obtain ⟨s, hs, hr, hlen⟩ := createGraphs_reachable "Graph" (2 ^ 31) loadedEditor
    reachable_loadedEditor
  have h1 : loadedEditor.mOpenGraphNames.length = 1 := rfl
  have hlt : 2 ^ 31 < s.mOpenGraphNames.length := by omega
  have hget : s.mOpenGraphNames[2 ^ 31]? = some (s.mOpenGraphNames[2 ^ 31]) :=
    List.getElem?_eq_getElem hlt
  have hv := (reachable_bookkeeping_aux hr).2.2.2.1 _ _ hget
  have hw : toInt32 (2 ^ 31) = -2147483648 := by decide
  refine ⟨s, _, hs, hr, hget, by rw [hv, hw], ?_⟩
  rw [hv, hw]
  decide

/-! ## `serializePass` -/

theorem Dictionary.find?_isSome {V : Type} (d : Dictionary V) (key : String) :
    (d.find? key).isSome = d.keyExists key := by
  unfold Dictionary.find? Dictionary.keyExists
  induction d.entries with
  | nil => rfl
  | cons kv rest ih =>
    simp only [List.find?, List.any]
    cases kv.1 == key
    · simpa using ih
    · rfl

theorem Dictionary.keyExists_of_mem {V : Type} (d : Dictionary V) (kv : String × V)
    (h : kv ∈ d.entries) : d.keyExists kv.1 = true := by
  unfold Dictionary.keyExists
  rw [List.any_eq_true]
  exact ⟨kv, h, by simp⟩

theorem serialize_load {V Params Sampler Options : Type} (key : String)
    (store : PathTracer Params Sampler Options → V)
    (load : V → PathTracer Params Sampler Options → PathTracer Params Sampler Options)
    (st : SerializeState V Params Sampler Options) :
    serialize true key store load st =
      { dict := st.dict
        pass := match st.dict.find? key with
          | some v => load v st.pass
          | none => st.pass
        vars := if st.dict.keyExists key then st.vars.insert key else st.vars
        log := st.log } := by
  unfold serialize
  have hs := Dictionary.find?_isSome st.dict key
  cases hf : st.dict.find? key with
  | none =>
    rw [hf] at hs
    have hk : st.dict.keyExists key = false := by rw [← hs]; rfl
    simp [hk]
  | some v =>
    rw [hf] at hs
    have hk : st.dict.keyExists key = true := by rw [← hs]; rfl
    simp [hk]

theorem mem_serialize_vars (k key : String) (b : Bool) (vs : List String) :
    k ∈ (if b = true then vs.insert key else vs) ↔ (b = true ∧ k = key) ∨ k ∈ vs := by
  cases b <;> simp [List.mem_insert_iff]

theorem warnUnknown_eq {V : Type} (vars : List String) (entries : List (String × V))
    (log : List String) :
    warnUnknown vars entries log =
      log ++ (entries.filter (fun kv => decide (kv.1 ∉ vars))).map
        (fun kv => unknownFieldWarning kv.1) := by
  unfold warnUnknown
  induction entries generalizing log with
  | nil => simp
  | cons kv rest ih =>
    rw [List.foldl_cons, ih]
    by_cases h : kv.1 ∈ vars
    · simp [h]
    · simp [h]

/-- The dictionary, the pass and the log after `serializePass<true>`. -/
theorem serializePass_load {V Params Sampler Options : Type}
    (conv : ValueConv V Params Sampler Options) (d : Dictionary V)
    (p : PathTracer Params Sampler Options) (log : List String) :
    serializePass conv true d p log =
      (d,
        { p with
          mSharedParams := match d.find? "mSharedParams" with
            | some v => conv.toParams v
            | none => p.mSharedParams
          mSelectedSampleGenerator := match d.find? "mSelectedSampleGenerator" with
            | some v => conv.toUInt32 v
            | none => p.mSelectedSampleGenerator
          mSelectedEmissiveSampler := match d.find? "mSelectedEmissiveSampler" with
            | some v => conv.toSampler v
            | none => p.mSelectedEmissiveSampler
          mUniformSamplerOptions := match d.find? "mUniformSamplerOptions" with
            | some v => conv.toOptions v
            | none => p.mUniformSamplerOptions },
        log ++ (d.entries.filter (fun kv => decide (kv.1 ∉ serializedKeys))).map
          (fun kv => unknownFieldWarning kv.1)) := by
  unfold serializePass
  simp only [serialize_load, if_true, warnUnknown_eq]
  refine Prod.ext rfl (Prod.ext ?_ ?_)
  · simp only
    cases d.find? "mSharedParams" <;> cases d.find? "mSelectedSampleGenerator" <;>
      cases d.find? "mSelectedEmissiveSampler" <;> cases d.find? "mUniformSamplerOptions" <;> rfl
  · simp only
    congr 2
    apply List.filter_congr
    intro kv hkv
    have hk := Dictionary.keyExists_of_mem d kv hkv
    have hiff : ∀ vs : List String,
        (kv.1 ∈ vs ↔ kv.1 ∈ serializedKeys) → (decide (kv.1 ∉ vs) = decide (kv.1 ∉ serializedKeys)) := by
      intro vs h
      simp only [h]
    apply hiff
    simp only [mem_serialize_vars, serializedKeys, List.mem_cons, List.mem_nil_iff, or_false,
      List.not_mem_nil]
    constructor
    · rintro (⟨_, h⟩ | ⟨_, h⟩ | ⟨_, h⟩ | ⟨_, h⟩)
      · simp [h]
      · simp [h]
      · simp [h]
      · simp [h]
    · rintro (h | h | h | h)
      · rw [h] at hk; exact Or.inr (Or.inr (Or.inr ⟨hk, h⟩))
      · rw [h] at hk; exact Or.inr (Or.inr (Or.inl ⟨hk, h⟩))
      · rw [h] at hk; exact Or.inr (Or.inl ⟨hk, h⟩)
      · rw [h] at hk; exact Or.inl ⟨hk, h⟩

/-- The dictionary `serializePass<false>` builds from an empty one, the pass and the log
being left as they were. -/
theorem serializePass_store {V Params Sampler Options : Type}
    (conv : ValueConv V Params Sampler Options)
    (p : PathTracer Params Sampler Options) (log : List String) :
    serializePass conv false ⟨[]⟩ p log =
      (⟨[("mSharedParams", conv.ofParams p.mSharedParams),
          ("mSelectedSampleGenerator", conv.ofUInt32 p.mSelectedSampleGenerator),
          ("mSelectedEmissiveSampler", conv.ofSampler p.mSelectedEmissiveSampler),
          ("mUniformSamplerOptions", conv.ofOptions p.mUniformSamplerOptions)]⟩, p, log) := by
  simp [serializePass, serialize, Dictionary.assign, Dictionary.keyExists]

/-- C3. `serializePass<true>(d)` appends to the log, in the order of the entries of `d`,
the warning "Unknown field `key` in a PathTracer dictionary" for each entry whose key is
none of the four serialized names, and nothing for the other entries; the number of
warnings is the number of entries with a key outside the four. -/
theorem serializePass_warnings {V Params Sampler Options : Type}
    (conv : ValueConv V Params Sampler Options) (d : Dictionary V)
    (p : PathTracer Params Sampler Options) (log : List String) :
    (serializePass conv true d p log).2.2 =
      log ++ (d.entries.filter (fun kv => decide (kv.1 ∉ ["mSharedParams",
          "mSelectedSampleGenerator", "mSelectedEmissiveSampler",
          "mUniformSamplerOptions"]))).map
        (fun kv => "Unknown field `" ++ kv.1 ++ "` in a PathTracer dictionary") ∧
    (serializePass conv true d p log).2.2.length =
      log.length + d.entries.countP (fun kv => decide (kv.1 ∉ ["mSharedParams",
          "mSelectedSampleGenerator", "mSelectedEmissiveSampler",
          "mUniformSamplerOptions"])) := by
  rw [serializePass_load]
  refine ⟨rfl, ?_⟩
  simp only [List.length_append, List.length_map, List.countP_eq_length_filter, serializedKeys]

/-- C4. After `serializePass<true>(d)` each of the four serialized members holds the value
`d` has under the member's name when that key exists, and its old value otherwise; every
other member of the pass and the dictionary itself are as before. -/
theorem serializePass_load_frame {V Params Sampler Options : Type}
    (conv : ValueConv V Params Sampler Options) (d : Dictionary V)
    (p : PathTracer Params Sampler Options) (log : List String) :
    (serializePass conv true d p log).1 = d ∧
    (if d.keyExists "mSharedParams" then
        ∃ v, d.find? "mSharedParams" = some v ∧
          (serializePass conv true d p log).2.1.mSharedParams = conv.toParams v
      else (serializePass conv true d p log).2.1.mSharedParams = p.mSharedParams) ∧
    (if d.keyExists "mSelectedSampleGenerator" then
        ∃ v, d.find? "mSelectedSampleGenerator" = some v ∧
          (serializePass conv true d p log).2.1.mSelectedSampleGenerator = conv.toUInt32 v
      else (serializePass conv true d p log).2.1.mSelectedSampleGenerator =
        p.mSelectedSampleGenerator) ∧
    (if d.keyExists "mSelectedEmissiveSampler" then
        ∃ v, d.find? "mSelectedEmissiveSampler" = some v ∧
          (serializePass conv true d p log).2.1.mSelectedEmissiveSampler = conv.toSampler v
      else (serializePass conv true d p log).2.1.mSelectedEmissiveSampler =
        p.mSelectedEmissiveSampler) ∧
    (if d.keyExists "mUniformSamplerOptions" then
        ∃ v, d.find? "mUniformSamplerOptions" = some v ∧
          (serializePass conv true d p log).2.1.mUniformSamplerOptions = conv.toOptions v
      else (serializePass conv true d p log).2.1.mUniformSamplerOptions =
        p.mUniformSamplerOptions) ∧
    { (serializePass conv true d p log).2.1 with
      mSharedParams := p.mSharedParams
      mSelectedSampleGenerator := p.mSelectedSampleGenerator
      mSelectedEmissiveSampler := p.mSelectedEmissiveSampler
      mUniformSamplerOptions := p.mUniformSamplerOptions } = p := by
  rw [serializePass_load]
  have hk := fun key => Dictionary.find?_isSome d key
  refine ⟨rfl, ?_, ?_, ?_, ?_, rfl⟩
  · rw [← hk]
    cases d.find? "mSharedParams" <;> simp
  · rw [← hk]
    cases d.find? "mSelectedSampleGenerator" <;> simp
  · rw [← hk]
    cases d.find? "mSelectedEmissiveSampler" <;> simp
  · rw [← hk]
    cases d.find? "mUniformSamplerOptions" <;> simp

/-- C2. With conversions that give back what was stored, the dictionary `d` that
`serializePass<false>` builds from an empty one for a pass `p` has exactly the four keys,
and `serializePass<true>` with `d` on any pass `q` leaves `d` alone, gives `q` the four
members of `p`, keeps the other members of `q`, and logs nothing. -/
theorem serializePass_roundtrip {V Params Sampler Options : Type}
    (conv : ValueConv V Params Sampler Options)
    (hParams : ∀ x, conv.toParams (conv.ofParams x) = x)
    (hUInt32 : ∀ x, conv.toUInt32 (conv.ofUInt32 x) = x)
    (hSampler : ∀ x, conv.toSampler (conv.ofSampler x) = x)
    (hOptions : ∀ x, conv.toOptions (conv.ofOptions x) = x)
    (p q : PathTracer Params Sampler Options) (log log' : List String) :
    ((serializePass conv false ⟨[]⟩ p log).1.entries.map Prod.fst).Perm
      ["mSharedParams", "mSelectedSampleGenerator", "mSelectedEmissiveSampler",
        "mUniformSamplerOptions"] ∧
    (∀ key, (serializePass conv false ⟨[]⟩ p log).1.keyExists key = true ↔
      key ∈ ["mSharedParams", "mSelectedSampleGenerator", "mSelectedEmissiveSampler",
        "mUniformSamplerOptions"]) ∧
    serializePass conv true (serializePass conv false ⟨[]⟩ p log).1 q log' =
      ((serializePass conv false ⟨[]⟩ p log).1,
        { q with
          mSharedParams := p.mSharedParams
          mSelectedSampleGenerator := p.mSelectedSampleGenerator
          mSelectedEmissiveSampler := p.mSelectedEmissiveSampler
          mUniformSamplerOptions := p.mUniformSamplerOptions },
        log') := by
  rw [serializePass_store]
  refine ⟨List.Perm.refl _, ?_, ?_⟩
  · intro key
    simp only [Dictionary.keyExists, List.any_cons, List.any_nil, Bool.or_false,
      Bool.or_eq_true, beq_iff_eq, List.mem_cons, List.mem_nil_iff, or_false, List.not_mem_nil]
    constructor
    · rintro (h | h | h | h) <;> simp [← h]
    · rintro (h | h | h | h) <;> simp [h]
  · rw [serializePass_load]
    simp [Dictionary.find?, List.find?, hParams, hUInt32, hSampler, hOptions, serializedKeys]

/-- A pass with parameters `(3, 8)`, generator 1, sampler and options set, stored and
loaded into a pass with other settings. -/
theorem serializePass_roundtrip_witness :
    (∀ x, exampleConv.toParams (exampleConv.ofParams x) = x) ∧
    serializePass exampleConv true
        (serializePass exampleConv false ⟨[]⟩ (examplePass (3, 8) 1 true true) []).1
        (examplePass (0, 0) 0 false false) [] =
      (⟨[("mSharedParams", .params (3, 8)), ("mSelectedSampleGenerator", .uint 1),
          ("mSelectedEmissiveSampler", .sampler true),
          ("mUniformSamplerOptions", .options true)]⟩,
        examplePass (3, 8) 1 true true, []) :=
  ⟨fun _ => rfl,
    (serializePass_roundtrip exampleConv (fun _ => rfl) (fun _ => rfl) (fun _ => rfl)
      (fun _ => rfl) (examplePass (3, 8) 1 true true) (examplePass (0, 0) 0 false false)
      [] []).2.2⟩

/-! ## Warnings -/

theorem callGraph_log {i : Nat} {c : GraphCall} {s s' : EditorState}
    (h : callGraph i c s = some s') : s'.log = s.log := by
  unfold callGraph at h
  split at h
  · cases h
  · cases h
    rfl

theorem callUI_log {i : Nat} {c : UICall} {s s' : EditorState}
    (h : callUI i c s = some s') : s'.log = s.log := by
  unfold callUI at h
  split at h
  · cases h
  · cases h
    rfl

theorem loadScene_log {f : String} {b : Bool} {s s' : EditorState}
    (h : loadScene f b s = some s') : s'.log = s.log := by
  simp only [loadScene, bind, Option.bind_eq_some, pure, Option.some.injEq] at h
  obtain ⟨s1, h1, s2, h2, rfl⟩ := h
  simp [callGraph_log h2, callGraph_log h1]

theorem serializeRenderGraph_log {f : String} {s s' : EditorState}
    (h : serializeRenderGraph f s = some s') : s'.log = s.log :=
  callGraph_log h

theorem deserializeRenderGraph_log {f : String} {s s' : EditorState}
    (h : deserializeRenderGraph f s = some s') : s'.log = s.log := by
  simp only [deserializeRenderGraph, bind, Option.bind_eq_some, pure, Option.some.injEq] at h
  obtain ⟨s1, h1, rfl⟩ := h
  simp [callGraph_log h1]

theorem createRenderGraph_log {n f : String} {s s' : EditorState}
    (h : createRenderGraph n f s = some s') : s'.log = s.log := by
  unfold createRenderGraph at h
  simp only [bind, Option.bind_eq_some, pure] at h
  obtain ⟨s1, h1, s2, h2, p, hp, s3, h3, s4, h4, h5⟩ := h
  have e1 : s1.log = s.log := by
    split at h1
    · exact (callGraph_log h1).trans rfl
    · cases h1
      rfl
  have e2 : s2.log = s1.log := by
    split at h2
    · exact callGraph_log h2
    · exact loadScene_log h2
  cases h5
  simp [callGraph_log h4, callGraph_log h3, e2, e1]

theorem createAndAddRenderPass_log {funcs : CreateFuncs} {t n : String} {s s' : EditorState}
    (h : (createAndAddRenderPass funcs t n s).2 = some s') : s'.log = s.log := by
  unfold createAndAddRenderPass at h
  dsimp only at h
  split at h
  · exact callGraph_log h
  · cases h

theorem createAndAddConnection_log {addEdge : RenderGraph → String → String → Bool}
    {a b c d : String} {s s' : EditorState}
    (h : createAndAddConnection addEdge a b c d s = some s') :
    s'.log = s.log ∨ s'.log = s.log ++ [connectionWarning a b c d] := by
  unfold createAndAddConnection at h
  split at h
  · cases h
  · dsimp only at h
    split at h
    · cases h
    · rename_i s1 h1
      have e1 := callGraph_log h1
      split at h
      · cases h
        right
        show s1.log ++ _ = _
        rw [e1]
        rfl
      · cases h
        exact Or.inl e1

theorem onLoad_log {p : Nat} {s s' : EditorState} (h : onLoad p s = some s') :
    s'.log = s.log :=
  (createRenderGraph_log h).trans rfl

theorem onFrameRender_log {p : Nat} {k : Bool} {s s' : EditorState}
    (h : onFrameRender p k s = some s') : s'.log = s.log := by
  unfold onFrameRender at h
  cases hp : s.mPreviewing <;> cases k <;>
    simp only [hp, Bool.and_true, Bool.and_false, Bool.false_and, if_true, if_false,
      Bool.not_true, Bool.not_false, bind, pure, Option.bind_eq_some, Option.some.injEq,
      Bool.false_eq_true] at h
  · cases h
    rfl
  · cases h
    rfl
  · obtain ⟨s1, h1, h2⟩ := h
    rw [callGraph_log h2, callGraph_log h1]
  · cases h
    rfl

theorem onResizeSwapChain_log {s s' : EditorState} (h : onResizeSwapChain s = some s') :
    s'.log = s.log := by
  simp only [onResizeSwapChain, bind, Option.bind_eq_some] at h
  obtain ⟨s1, h1, h2⟩ := h
  rw [callGraph_log h2, callGraph_log h1]

theorem onGuiRender_loadGraph_log {d : Option String} {s s' : EditorState}
    (h : onGuiRender_loadGraph d s = some s') : s'.log = s.log := by
  unfold onGuiRender_loadGraph at h
  split at h
  · cases h
    rfl
  · split at h
    · cases h
    · exact createRenderGraph_log h

theorem onGuiRender_saveGraph_log {d : Option String} {s s' : EditorState}
    (h : onGuiRender_saveGraph d s = some s') : s'.log = s.log := by
  unfold onGuiRender_saveGraph at h
  split at h
  · cases h
    rfl
  · exact serializeRenderGraph_log h

theorem onGuiRender_runScript_log {d : Option String} {s s' : EditorState}
    (h : onGuiRender_runScript d s = some s') : s'.log = s.log := by
  unfold onGuiRender_runScript at h
  split at h
  · cases h
    rfl
  · exact deserializeRenderGraph_log h

theorem onGuiRender_createNewGraph_log (c : Bool) (s : EditorState) :
    (onGuiRender_createNewGraph c s).log = s.log := by
  unfold onGuiRender_createNewGraph
  split <;> rfl

theorem onGuiRender_menu_log {g : GuiFrame} {s s' : EditorState}
    (h : onGuiRender_menu g s = some s') : s'.log = s.log := by
  unfold onGuiRender_menu at h
  split at h
  · simp only [bind, Option.bind_eq_some] at h
    obtain ⟨s1, h1, s2, h2, h3⟩ := h
    have e1 : s1.log = s.log := by
      split at h1
      · exact (onGuiRender_loadGraph_log h1).trans (onGuiRender_createNewGraph_log _ _)
      · cases h1
        exact onGuiRender_createNewGraph_log _ _
    have e2 : s2.log = s1.log := by
      split at h2
      · exact onGuiRender_saveGraph_log h2
      · cases h2
        rfl
    have e3 : s'.log = s2.log := by
      split at h3
      · exact onGuiRender_runScript_log h3
      · cases h3
        rfl
    rw [e3, e2, e1]
  · cases h
    rfl

theorem onGuiRender_openGraph_log {d : Option Nat} {s s' : EditorState}
    (h : onGuiRender_openGraph d s = some s') : s'.log = s.log := by
  unfold onGuiRender_openGraph at h
  split at h
  · split at h
    · exact (callUI_log h).trans rfl
    · cases h
      rfl
  · cases h
    rfl

theorem onGuiRender_loaderOutput_log {o : String} {s s' : EditorState}
    (h : onGuiRender_loaderOutput o s = some s') : s'.log = s.log := by
  unfold onGuiRender_loaderOutput at h
  split at h
  · exact (callGraph_log h).trans rfl
  · cases h
    rfl

theorem onGuiRender_graphOutput_log {u : Bool} {s s' : EditorState}
    (h : onGuiRender_graphOutput u s = some s') : s'.log = s.log := by
  unfold onGuiRender_graphOutput at h
  split at h
  · split at h
    · simp only [bind, Option.bind_eq_some] at h
      obtain ⟨s1, h1, s2, h2, h3⟩ := h
      rw [callGraph_log h3, (callGraph_log h2).trans rfl, callGraph_log h1]
    · cases h
      rfl
  · cases h
    rfl

theorem closeCreateWindow_log (s : EditorState) : (closeCreateWindow s).log = s.log := rfl

theorem editGraphName_log (t : Option String) (s : EditorState) :
    (editGraphName t s).log = s.log := by
  unfold editGraphName
  split <;> rfl

theorem onGuiRender_createGraph_log {c : Bool} {s s' : EditorState}
    (h : onGuiRender_createGraph c s = some s') : s'.log = s.log := by
  unfold onGuiRender_createGraph at h
  split at h
  · simp only [Option.map_eq_some'] at h
    obtain ⟨s1, h1, rfl⟩ := h
    exact (closeCreateWindow_log s1).trans (createRenderGraph_log h1)
  · cases h
    rfl

theorem onGuiRender_createWindow_log {g : GuiFrame} {s s' : EditorState}
    (h : onGuiRender_createWindow g s = some s') : s'.log = s.log := by
  unfold onGuiRender_createWindow at h
  split at h
  · simp only [bind, Option.bind_eq_some, Option.some.injEq] at h
    obtain ⟨s1, h1, rfl⟩ := h
    have e1 := (onGuiRender_createGraph_log h1).trans (editGraphName_log _ _)
    split
    · exact (closeCreateWindow_log s1).trans e1
    · exact e1
  · cases h
    rfl

theorem onGuiRender_log {g : GuiFrame} {s s' : EditorState}
    (h : onGuiRender g s = some s') : s'.log = s.log := by
  simp only [onGuiRender, bind, Option.bind_eq_some] at h
  obtain ⟨s1, h1, s2, h2, s3, h3, s4, h4, s5, h5, h6⟩ := h
  have e4 : s4.log = s3.log := by
    refine (onGuiRender_loaderOutput_log h4).trans ?_
    split <;> rfl
  rw [onGuiRender_createWindow_log h6, onGuiRender_graphOutput_log h5, e4,
    onGuiRender_openGraph_log h3, callUI_log h2, onGuiRender_menu_log h1]

theorem serializePass_store_log {V Params Sampler Options : Type}
    (conv : ValueConv V Params Sampler Options) (d : Dictionary V)
    (p : PathTracer Params Sampler Options) (log : List String) :
    (serializePass conv false d p log).2.2 = log := by
  simp [serializePass, serialize]

theorem EditorCall.apply_log {addEdge : RenderGraph → String → String → Bool}
    {call : EditorCall} {funcs : CreateFuncs} {s : EditorState} {r : CreateFuncs × EditorState}
    (h : call.apply addEdge funcs s = some r) :
    r.2.log = s.log ∨ ∃ a b c d, call = EditorCall.createAndAddConnection a b c d ∧
      r.2.log = s.log ++ [connectionWarning a b c d] := by
  cases call <;> simp only [EditorCall.apply, Option.map_eq_some', Option.some.injEq] at h
  case onGuiRender g =>
    obtain ⟨s', h1, rfl⟩ := h
    exact Or.inl (onGuiRender_log h1)
  case loadScene f p =>
    obtain ⟨s', h1, rfl⟩ := h
    exact Or.inl (loadScene_log h1)
  case serializeRenderGraph f =>
    obtain ⟨s', h1, rfl⟩ := h
    exact Or.inl (serializeRenderGraph_log h1)
  case deserializeRenderGraph f =>
    obtain ⟨s', h1, rfl⟩ := h
    exact Or.inl (deserializeRenderGraph_log h1)
  case createRenderGraph n f =>
    obtain ⟨s', h1, rfl⟩ := h
    exact Or.inl (createRenderGraph_log h1)
  case createAndAddConnection a b c d =>
    obtain ⟨s', h1, rfl⟩ := h
    rcases createAndAddConnection_log h1 with e | e
    · exact Or.inl e
    · exact Or.inr ⟨a, b, c, d, rfl, e⟩
  case createAndAddRenderPass t n =>
    obtain ⟨s', h1, rfl⟩ := h
    exact Or.inl (createAndAddRenderPass_log h1)
  case onLoad p =>
    obtain ⟨s', h1, rfl⟩ := h
    exact Or.inl (onLoad_log h1)
  case renderGraphEditorGUI =>
    obtain ⟨s', h1, rfl⟩ := h
    cases h1
    exact Or.inl rfl
  case onFrameRender p k =>
    obtain ⟨s', h1, rfl⟩ := h
    exact Or.inl (onFrameRender_log h1)
  case onKeyEvent a =>
    cases h
    exact Or.inl rfl
  case onMouseEvent a =>
    cases h
    exact Or.inl rfl
  case onResizeSwapChain =>
    obtain ⟨s', h1, rfl⟩ := h
    exact Or.inl (onResizeSwapChain_log h1)

theorem Sample.run_log {addEdge : RenderGraph → String → String → Bool}
    {config : SampleConfig} {calls : List EditorCall} {funcs : CreateFuncs}
    {s : EditorState} {r : CreateFuncs × EditorState}
    (h : Sample.run addEdge config calls funcs s = some r) :
    ∃ ws, r.2.log = s.log ++ ws ∧ ∀ m ∈ ws, ∃ a b c d,
      EditorCall.createAndAddConnection a b c d ∈ calls ∧ m = connectionWarning a b c d := by
  induction calls generalizing funcs s with
  | nil =>
    simp only [Sample.run, Option.some.injEq] at h
    subst h
    exact ⟨[], by simp, by simp⟩
  | cons call rest ih =>
    simp only [Sample.run] at h
    split at h
    · cases h
    · rename_i next hnext
      obtain ⟨ws, hws, hmem⟩ := ih h
      rcases EditorCall.apply_log hnext with e | ⟨a, b, c, d, hc, e⟩
      · refine ⟨ws, by rw [hws, e], ?_⟩
        intro m hm
        obtain ⟨a, b, c, d, h1, h2⟩ := hmem m hm
        exact ⟨a, b, c, d, List.mem_cons_of_mem _ h1, h2⟩
      · refine ⟨connectionWarning a b c d :: ws, by rw [hws, e]; simp, ?_⟩
        intro m hm
        rcases List.mem_cons.mp hm with h0 | h0
        · exact ⟨a, b, c, d, by rw [hc]; exact List.mem_cons_self _ _, h0⟩
        · obtain ⟨a', b', c', d', h1, h2⟩ := hmem m h0
          exact ⟨a', b', c', d', List.mem_cons_of_mem _ h1, h2⟩

theorem WinMain_log {addEdge : RenderGraph → String → String → Bool} {b : Bool}
    {funcs : CreateFuncs} {calls : List EditorCall} {r : Int × CreateFuncs × EditorState}
    (h : WinMain addEdge b funcs calls = some r) :
    r.1 = 0 ∧
    (∀ m ∈ r.2.2.log, ∃ a b c d,
      EditorCall.createAndAddConnection a b c d ∈ calls ∧ m = connectionWarning a b c d) ∧
    ((∀ a b c d, EditorCall.createAndAddConnection a b c d ∉ calls) → r.2.2.log = []) := by
  simp only [WinMain, Option.map_eq_some'] at h
  obtain ⟨r', h1, rfl⟩ := h
  obtain ⟨ws, hws, hmem⟩ := Sample.run_log h1
  have hlog : r'.2.log = ws := by
    rw [hws]
    rfl
  refine ⟨rfl, ?_, ?_⟩
  · intro m hm
    exact hmem m (by rw [← hlog]; exact hm)
  · intro hno
    show r'.2.log = []
    rw [hlog]
    cases ws with
    | nil => rfl
    | cons w rest =>
      obtain ⟨a, b, c, d, h2, _⟩ := hmem w (List.mem_cons_self _ _)
      exact absurd h2 (hno a b c d)

/-- C5, as the code has it. The warning of `createAndAddConnection` is not the only one:
`serializePass<true>` appends one warning "Unknown field `key` in a PathTracer dictionary"
for each dictionary entry whose key is none of the four serialized names, so it leaves
the log alone exactly when every key is one of the four. Every other operation of the
two files leaves the log as it found it: the constructor (which starts with an empty
log), `loadScene`, `serializeRenderGraph`, `deserializeRenderGraph`, `createRenderGraph`,
`createAndAddRenderPass`, `onLoad`, `renderGraphEditorGUI`, `onFrameRender`,
`onKeyEvent`, `onMouseEvent`, `onResizeSwapChain`, `onGuiRender`, and, of the path
tracer, `onKeyEvent`, `recreateVars` and `serializePass<false>`. `WinMain` returns 0 with
a log that holds nothing but warnings of `createAndAddConnection` calls made on the
editor during the run of the main loop, an empty log when there is no such call. -/
theorem warnings_elsewhere :
    (∀ b, (RenderGraphEditor b).log = []) ∧
    (∀ f b s s', loadScene f b s = some s' → s'.log = s.log) ∧
    (∀ f s s', serializeRenderGraph f s = some s' → s'.log = s.log) ∧
    (∀ f s s', deserializeRenderGraph f s = some s' → s'.log = s.log) ∧
    (∀ n f s s', createRenderGraph n f s = some s' → s'.log = s.log) ∧
    (∀ funcs t n s s', (createAndAddRenderPass funcs t n s).2 = some s' → s'.log = s.log) ∧
    (∀ p s s', onLoad p s = some s' → s'.log = s.log) ∧
    (∀ s s', renderGraphEditorGUI s = some s' → s'.log = s.log) ∧
    (∀ p k s s', onFrameRender p k s = some s' → s'.log = s.log) ∧
    (∀ a s, (onKeyEvent a s).2.log = s.log) ∧
    (∀ a s, (onMouseEvent a s).2.log = s.log) ∧
    (∀ s s', onResizeSwapChain s = some s' → s'.log = s.log) ∧
    (∀ g s s', onGuiRender g s = some s' → s'.log = s.log) ∧
    (∀ addEdge b funcs calls r, WinMain addEdge b funcs calls = some r →
      r.1 = 0 ∧
      (∀ m ∈ r.2.2.log, ∃ srcRenderPass dstRenderPass srcField dstField,
        EditorCall.createAndAddConnection srcRenderPass dstRenderPass srcField dstField
          ∈ calls ∧
        m = "Failed to create edge between nodes: " ++ srcRenderPass ++ " and " ++
          dstRenderPass ++ " connecting fields " ++ srcField ++ " to " ++ dstField ++
          ".\n") ∧
      ((∀ srcRenderPass dstRenderPass srcField dstField,
        EditorCall.createAndAddConnection srcRenderPass dstRenderPass srcField dstField
          ∉ calls) → r.2.2.log = [])) ∧
    (∀ (Params Sampler Options : Type) (p : PathTracer Params Sampler Options)
      (log : List String), (p.onKeyEvent log).2.2 = log ∧ (p.recreateVars log).2 = log) ∧
    (∀ (V Params Sampler Options : Type) (conv : ValueConv V Params Sampler Options)
      (d : Dictionary V) (p : PathTracer Params Sampler Options) (log : List String),
      (serializePass conv false d p log).2.2 = log ∧
      (serializePass conv true d p log).2.2 =
        log ++ (d.entries.filter (fun kv => decide (kv.1 ∉ ["mSharedParams",
            "mSelectedSampleGenerator", "mSelectedEmissiveSampler",
            "mUniformSamplerOptions"]))).map
          (fun kv => "Unknown field `" ++ kv.1 ++ "` in a PathTracer dictionary") ∧
      ((serializePass conv true d p log).2.2 = log ↔
        ∀ kv ∈ d.entries, kv.1 ∈ ["mSharedParams", "mSelectedSampleGenerator",
          "mSelectedEmissiveSampler", "mUniformSamplerOptions"])) := by
  refine ⟨fun _ => rfl, fun _ _ _ _ => loadScene_log, fun _ _ _ => serializeRenderGraph_log,
    fun _ _ _ => deserializeRenderGraph_log, fun _ _ _ _ => createRenderGraph_log,
    fun _ _ _ _ _ => createAndAddRenderPass_log, fun _ _ _ => onLoad_log, ?_,
    fun _ _ _ _ => onFrameRender_log, fun _ _ => rfl, fun _ _ => rfl,
    fun _ _ => onResizeSwapChain_log, fun _ _ _ => onGuiRender_log,
    fun _ _ _ _ _ h => WinMain_log h, fun _ _ _ _ _ => ⟨rfl, rfl⟩, ?_⟩
  · intro s s' h
    cases h
    rfl
  · intro V Params Sampler Options conv d p log
    refine ⟨serializePass_store_log conv d p log, ?_, ?_⟩
    · rw [serializePass_load]
      rfl
    · rw [serializePass_load]
      simp only [List.append_right_eq_self, List.map_eq_nil_iff, List.filter_eq_nil_iff,
        decide_eq_true_eq, not_not, serializedKeys]

/-- A run of `WinMain` in which the main loop calls `onLoad` and then `onGuiRender` for
one frame (a graph is loaded from a file and the output is updated): it returns 0, two
graphs are open, and the log is empty. -/
theorem warnings_elsewhere_witness :
    ∃ r, WinMain (fun _ _ _ => false) false []
        [.onLoad 0, .onGuiRender exampleFrame] = some r ∧
      r.1 = 0 ∧ r.2.2.mpGraphs.length = 2 ∧ r.2.2.log = [] := by
  have hrun : ∃ r, WinMain (fun _ _ _ => false) false []
      [.onLoad 0, .onGuiRender exampleFrame] = some r ∧ r.2.2.mpGraphs.length = 2 :=
    ⟨_, rfl, rfl⟩
  obtain ⟨r, h1, h2⟩ := hrun
  have h := warnings_elsewhere.2.2.2.2.2.2.2.2.2.2.2.2.2.1 _ _ _ _ _ h1
  refine ⟨r, h1, h.1, h2, h.2.2 ?_⟩
  intro a b c d hmem
  simp at hmem

/-- Counterexample to C5 as written: `serializePass<true>` on a dictionary with the one
entry `maxBounces` logs a warning. -/
theorem warning_counterexample :
    (serializePass exampleConv true ⟨[("maxBounces", .uint 3)]⟩
      (examplePass (3, 8) 1 true true) []).2.2 =
      ["Unknown field `maxBounces` in a PathTracer dictionary"] := by
  rfl

end Falcor
